import Mathlib

/-!
Meeting Room Booking API: verification of the reservation engine

A shallow embedding of the reservation validation and overlap-conflict
engine of the meeting-room service (`main.py`).

Modelling choices:

* An absolute instant (a timezone-aware Python `datetime`, normalized to
  UTC) is an `Int`: microseconds since the Unix epoch.  Python compares
  aware datetimes by instant, so `<`/`≤` on `Int` model datetime
  comparison, and `datetime` subtraction models `Int` subtraction
  (a `timedelta` is likewise microseconds as `Int`).
* A local (Europe/Helsinki) representation of an instant is also an
  `Int`: microseconds on the local wall clock, i.e. the instant plus the
  Helsinki UTC offset in force at that instant.  Civil components
  (date, time-of-day, minute, second) are extracted arithmetically.
* The Europe/Helsinki zone (`zoneinfo`) is modelled by the EU daylight
  saving rule in force since 1996: UTC+2, switching to UTC+3 between
  01:00 UTC on the last Sunday of March and 01:00 UTC on the last
  Sunday of October.  Calendar arithmetic uses the standard
  days-from-civil / civil-from-days algorithms (proleptic Gregorian).
-/

/-- Microseconds per second. -/
def uPerSec : Int := 1000000

/-- Microseconds per minute. -/
def uPerMin : Int := 60000000

/-- Microseconds per hour. -/
def uPerHour : Int := 3600000000

/-- Microseconds per day. -/
def uPerDay : Int := 86400000000

/-- Day number (days since 1970-01-01) of a proleptic-Gregorian civil date.
Standard era-based algorithm; `/` and `%` on `Int` are euclidean, which is
floor division for the positive divisors used here. -/
def daysFromCivil (y m d : Int) : Int :=
  let yAdj : Int := if m ≤ 2 then y - 1 else y
  let era : Int := yAdj / 400
  let yoe : Int := yAdj - era * 400
  let mp : Int := if 2 < m then m - 3 else m + 9
  let doy : Int := (153 * mp + 2) / 5 + d - 1
  let doe : Int := yoe * 365 + yoe / 4 - yoe / 100 + doy
  era * 146097 + doe - 719468

/-- Civil year containing a given day number (inverse direction of
`daysFromCivil`, standard algorithm). -/
def yearOfDay (z : Int) : Int :=
  let z2 : Int := z + 719468
  let era : Int := z2 / 146097
  let doe : Int := z2 % 146097
  let yoe : Int := (doe - doe / 1460 + doe / 36524 - doe / 146096) / 365
  let y : Int := yoe + era * 400
  let doy : Int := doe - (365 * yoe + yoe / 4 - yoe / 100)
  let mp : Int := (5 * doy + 2) / 153
  let m : Int := if mp < 10 then mp + 3 else mp - 9
  if m ≤ 2 then y + 1 else y

/-- Day number of the last Sunday on or before day `z`
(day 0 = 1970-01-01, a Thursday). -/
def lastSundayOnOrBefore (z : Int) : Int :=
  z - (z + 4) % 7

/-- Day number of the last Sunday of March of year `y` (EU DST start day). -/
def dstStartDay (y : Int) : Int :=
  lastSundayOnOrBefore (daysFromCivil y 3 31)

/-- Day number of the last Sunday of October of year `y` (EU DST end day). -/
def dstEndDay (y : Int) : Int :=
  lastSundayOnOrBefore (daysFromCivil y 10 31)

/-- UTC offset (in microseconds) of Europe/Helsinki at UTC instant `t`:
+3 h between 01:00 UTC on the last Sunday of March and 01:00 UTC on the
last Sunday of October, +2 h otherwise. -/
def helsinkiOffsetAtUtc (t : Int) : Int :=
  let y : Int := yearOfDay (t / uPerDay)
  if dstStartDay y * uPerDay + uPerHour ≤ t ∧ t < dstEndDay y * uPerDay + uPerHour
  then 3 * uPerHour else 2 * uPerHour

/-- Model of `to_helsinki` (main.py): converts a UTC instant to its Europe/Helsinki
local wall-clock representation (microseconds on the local clock). -/
def to_helsinki (dt_utc : Int) : Int :=
  dt_utc + helsinkiOffsetAtUtc dt_utc

/-- UTC offset (in microseconds) Europe/Helsinki assigns to a naive local
wall-clock value `w` with `fold=0` (PEP 495): the pre-transition offset for
times in the spring gap and the autumn overlap, hence +3 h exactly for wall
clocks in `[04:00 local on the DST start day, 04:00 local on the DST end
day)`. -/
def helsinkiOffsetAtWall (w : Int) : Int :=
  let y : Int := yearOfDay (w / uPerDay)
  if dstStartDay y * uPerDay + 4 * uPerHour ≤ w ∧ w < dstEndDay y * uPerDay + 4 * uPerHour
  then 3 * uPerHour else 2 * uPerHour

/-- Time-of-day (microseconds since local midnight) of a wall-clock value. -/
def todOf (t : Int) : Int := t % uPerDay

/-- Civil date (day number) of a wall-clock value (`datetime.date()`). -/
def dateOf (t : Int) : Int := t / uPerDay

/-- Minute component (`datetime.minute`) of a wall-clock value. -/
def minuteOf (t : Int) : Int := todOf t / uPerMin % 60

/-- Second component (`datetime.second`) of a wall-clock value. -/
def secondOf (t : Int) : Int := todOf t / uPerSec % 60

/-- Wall-clock microseconds of a civil date-time (helper for concrete
instants in examples). -/
def civilMicros (y mo d h mi s : Int) : Int :=
  daysFromCivil y mo d * uPerDay + h * uPerHour + mi * uPerMin + s * uPerSec

/-- An HTTP error raised by the engine (`fastapi.HTTPException`):
status code plus detail message. -/
structure HTTPException where
  status_code : Nat
  detail : String
deriving DecidableEq, Repr

/-- Error of `validate_time_order`. -/
def timeOrderErr : HTTPException :=
  ⟨400, "Start time must be before end time."⟩

/-- Error of `validate_not_in_past`. -/
def pastStartErr : HTTPException :=
  ⟨400, "Reservation start time cannot be in the past."⟩

/-- Error of `validate_30_min_blocks_local`. -/
def blocksErr : HTTPException :=
  ⟨400, "Reservations must start and end at 30-minute intervals (xx:00 or xx:30)."⟩

/-- First error of `validate_duration_limits`. -/
def durationShortErr : HTTPException :=
  ⟨400, "Reservation duration must be at least 30 minutes."⟩

/-- Second error of `validate_duration_limits`. -/
def durationLongErr : HTTPException :=
  ⟨400, "Reservation duration must be at most 8 hours."⟩

/-- Error of `validate_single_local_day`. -/
def singleDayErr : HTTPException :=
  ⟨400, "Reservation must be within a single local day (Europe/Helsinki)."⟩

/-- Start-outside-office-hours error of `validate_business_hours_local`. -/
def hoursStartErr : HTTPException :=
  ⟨400, "Reservation start must be within office hours 08:00–16:00."⟩

/-- End-outside-office-hours error of `validate_business_hours_local`. -/
def hoursEndErr : HTTPException :=
  ⟨400, "Reservation end must be within office hours 08:00–16:00."⟩

/-- Start-at-closing error of `validate_business_hours_local`. -/
def startAtClosingErr : HTTPException :=
  ⟨400, "Reservation cannot start at 16:00 (office closes)."⟩

/-- Overlap-conflict error of `InMemoryStore.create` (HTTP 409). -/
def overlapErr : HTTPException :=
  ⟨409, "Reservation overlaps with an existing reservation in the same room."⟩

/-- Not-found error of `InMemoryStore.delete` (HTTP 404). -/
def notFoundErr : HTTPException :=
  ⟨404, "Reservation not found."⟩

/-- Constant `BUSINESS_START = time(8, 0)` as a time-of-day in microseconds. -/
def BUSINESS_START : Int := 8 * uPerHour

/-- Constant `BUSINESS_END = time(16, 0)` as a time-of-day in microseconds. -/
def BUSINESS_END : Int := 16 * uPerHour

/-- Constant `MIN_DURATION = timedelta(minutes=30)` in microseconds. -/
def MIN_DURATION : Int := 30 * uPerMin

/-- Constant `MAX_DURATION = timedelta(hours=8)` in microseconds. -/
def MAX_DURATION : Int := 8 * uPerHour

/-- Model of `overlaps` (main.py): half-open interval overlap check,
`a_start < b_end and b_start < a_end`. -/
def overlaps (a_start a_end b_start b_end : Int) : Bool :=
  decide (a_start < b_end) && decide (b_start < a_end)

/-- Model of `validate_time_order` (main.py): raises if `start_utc >= end_utc`. -/
def validate_time_order (start_utc end_utc : Int) : Except HTTPException Unit :=
  if start_utc ≥ end_utc then Except.error timeOrderErr else Except.ok ()

/-- Model of `validate_not_in_past` (main.py): raises if `start_utc` is earlier than
the current UTC instant floored to the minute (`replace(second=0,
microsecond=0)`).  The ambient clock `now_utc()` is passed explicitly as
`now`. -/
def validate_not_in_past (now start_utc : Int) : Except HTTPException Unit :=
  let now_floor_to_minute : Int := now - now % uPerMin
  if start_utc < now_floor_to_minute then Except.error pastStartErr else Except.ok ()

/-- Model of `validate_30_min_blocks_local` (main.py): raises unless the minute
components of both local wall-clock values are multiples of 30. -/
def validate_30_min_blocks_local (start_local end_local : Int) : Except HTTPException Unit :=
  if minuteOf start_local % 30 ≠ 0 ∨ minuteOf end_local % 30 ≠ 0
  then Except.error blocksErr else Except.ok ()

/-- Model of `validate_duration_limits` (main.py): raises if the duration is below
`MIN_DURATION`, then if it is above `MAX_DURATION`. -/
def validate_duration_limits (start_utc end_utc : Int) : Except HTTPException Unit :=
  let duration : Int := end_utc - start_utc
  if duration < MIN_DURATION then Except.error durationShortErr
  else if duration > MAX_DURATION then Except.error durationLongErr
  else Except.ok ()

/-- Model of `validate_single_local_day` (main.py): raises if the local calendar
dates of start and end differ. -/
def validate_single_local_day (start_local end_local : Int) : Except HTTPException Unit :=
  if dateOf start_local ≠ dateOf end_local then Except.error singleDayErr else Except.ok ()

/-- Model of `validate_business_hours_local` (main.py): start and end time-of-day
must lie within `[BUSINESS_START, BUSINESS_END]` (both bounds inclusive,
full time-of-day comparison including seconds and microseconds), and the
start time-of-day must not be exactly `BUSINESS_END`. -/
def validate_business_hours_local (start_local end_local : Int) : Except HTTPException Unit :=
  if ¬ (BUSINESS_START ≤ todOf start_local ∧ todOf start_local ≤ BUSINESS_END)
  then Except.error hoursStartErr
  else if ¬ (BUSINESS_START ≤ todOf end_local ∧ todOf end_local ≤ BUSINESS_END)
  then Except.error hoursEndErr
  else if todOf start_local = BUSINESS_END
  then Except.error startAtClosingErr
  else Except.ok ()

/-- Model of `validate_business_rules` (main.py): the six checks in source order,
each raise propagating immediately (short-circuit). -/
def validate_business_rules (now start_utc end_utc : Int) : Except HTTPException Unit :=
  match validate_time_order start_utc end_utc with
  | Except.error e => Except.error e
  | Except.ok _ =>
    match validate_not_in_past now start_utc with
    | Except.error e => Except.error e
    | Except.ok _ =>
      let start_local : Int := to_helsinki start_utc
      let end_local : Int := to_helsinki end_utc
      match validate_30_min_blocks_local start_local end_local with
      | Except.error e => Except.error e
      | Except.ok _ =>
        match validate_duration_limits start_utc end_utc with
        | Except.error e => Except.error e
        | Except.ok _ =>
          match validate_single_local_day start_local end_local with
          | Except.error e => Except.error e
          | Except.ok _ => validate_business_hours_local start_local end_local

/-- The fixed room set `ROOMS = {"A", "B"}`. -/
inductive Room where
  | A : Room
  | B : Room
deriving DecidableEq, Repr

/-- Model of `Reservation` (main.py): immutable domain record, times stored in UTC. -/
structure Reservation where
  id : String
  room : Room
  start_utc : Int
  end_utc : Int
deriving DecidableEq, Repr

/-- The state of `InMemoryStore`: the dictionary `_by_room`, one
reservation list per room in `ROOMS`. -/
structure Store where
  roomA : List Reservation
  roomB : List Reservation
deriving DecidableEq, Repr

/-- Dictionary lookup `_by_room[room]`. -/
def Store.get (s : Store) : Room → List Reservation
  | Room.A => s.roomA
  | Room.B => s.roomB

/-- Dictionary update `_by_room[room] = l` (the in-place list mutations of
the source become functional updates of the owning store). -/
def Store.set (s : Store) : Room → List Reservation → Store
  | Room.A, l => ⟨l, s.roomB⟩
  | Room.B, l => ⟨s.roomA, l⟩

/-- Model of `InMemoryStore.__init__`: an empty reservation list for each room. -/
def emptyStore : Store := ⟨[], []⟩

/-- Sum-of-constructors view of `Except`, to derive decidable equality. -/
def exceptToSum {ε α : Type} : Except ε α → Sum ε α
  | Except.error e => Sum.inl e
  | Except.ok a => Sum.inr a

instance {ε α : Type} [DecidableEq ε] [DecidableEq α] : DecidableEq (Except ε α) :=
  fun x y =>
    decidable_of_iff (exceptToSum x = exceptToSum y) (by
      cases x <;> cases y <;> simp [exceptToSum])

/-- The sort key of `list_room`: `sorted(..., key=lambda r: r.start_utc)`
compares reservations by start instant. -/
def startLE (r₁ r₂ : Reservation) : Prop := r₁.start_utc ≤ r₂.start_utc

instance : DecidableRel startLE := fun r₁ r₂ => Int.decLe r₁.start_utc r₂.start_utc

instance : IsTotal Reservation startLE := ⟨fun r₁ r₂ => Int.le_total r₁.start_utc r₂.start_utc⟩

instance : IsTrans Reservation startLE := ⟨fun _ _ _ => Int.le_trans⟩

/-- Model of `InMemoryStore.list_room` (main.py): the room's reservations sorted
ascending by `start_utc`.  Python's `sorted` is a stable sort; insertion
sort with a non-strict `≤` on the key is stable, hence computes the same
list. -/
def InMemoryStore.list_room (s : Store) (room : Room) : List Reservation :=
  List.insertionSort startLE (s.get room)

/-- Model of `InMemoryStore.create` (main.py): validate the business rules, then
under the store lock reject on overlap with any existing reservation in
the room, else append a fresh record.  The ambient clock of
`validate_not_in_past` is the explicit `now`; the fresh `uuid4` identity
is the explicit `newId`.  The result pairs the HTTP outcome with the
post-state of the store (unchanged on every raise, which in the source
happens before any mutation). -/
def InMemoryStore.create (now : Int) (s : Store) (room : Room)
    (start_utc end_utc : Int) (newId : String) :
    Except HTTPException Reservation × Store :=
  match validate_business_rules now start_utc end_utc with
  | Except.error e => (Except.error e, s)
  | Except.ok _ =>
    let existing := s.get room
    if existing.any (fun r => overlaps start_utc end_utc r.start_utc r.end_utc)
    then (Except.error overlapErr, s)
    else
      let new_res : Reservation := ⟨newId, room, start_utc, end_utc⟩
      (Except.ok new_res, s.set room (existing ++ [new_res]))

/-- The loop of `InMemoryStore.delete`: remove the first reservation with
the given id (`reservations.pop(i)` at the first matching index), or
report that none matches. -/
def removeFirstById (rid : String) : List Reservation → Option (List Reservation)
  | [] => none
  | r :: rs =>
    if r.id = rid then some rs
    else (removeFirstById rid rs).map (fun l => r :: l)

/-- Model of `InMemoryStore.delete` (main.py): drop the first reservation of the
room whose id matches, raising 404 when none does. -/
def InMemoryStore.delete (s : Store) (room : Room) (reservation_id : String) :
    Except HTTPException Store :=
  match removeFirstById reservation_id (s.get room) with
  | some l => Except.ok (s.set room l)
  | none => Except.error notFoundErr

/-- Reachable states of `InMemoryStore`: the empty store of `__init__`,
closed under successful `create` and `delete` calls. -/
inductive Reachable : Store → Prop where
  | init : Reachable emptyStore
  | create (now : Int) (s : Store) (room : Room) (start_utc end_utc : Int)
      (newId : String) (r : Reservation) (s' : Store) :
      Reachable s →
      InMemoryStore.create now s room start_utc end_utc newId = (Except.ok r, s') →
      Reachable s'
  | delete (s : Store) (room : Room) (rid : String) (s' : Store) :
      Reachable s →
      InMemoryStore.delete s room rid = Except.ok s' →
      Reachable s'

/-- Number of days in a month of the proleptic Gregorian calendar. -/
def daysInMonth (y m : Int) : Int :=
  if m = 2 then (if y % 4 = 0 ∧ (y % 100 ≠ 0 ∨ y % 400 = 0) then 29 else 28)
  else if m = 4 ∨ m = 6 ∨ m = 9 ∨ m = 11 then 30
  else 31

/-- Value of a decimal digit character. -/
def digitVal (c : Char) : Option Int :=
  if c.isDigit then some ((c.toNat : Int) - 48) else none

/-- Parse exactly two decimal digits. -/
def parse2 : List Char → Option (Int × List Char)
  | c₁ :: c₂ :: rest => do
    let d₁ ← digitVal c₁
    let d₂ ← digitVal c₂
    some (d₁ * 10 + d₂, rest)
  | _ => none

/-- Parse exactly four decimal digits. -/
def parse4 : List Char → Option (Int × List Char)
  | c₁ :: c₂ :: c₃ :: c₄ :: rest => do
    let d₁ ← digitVal c₁
    let d₂ ← digitVal c₂
    let d₃ ← digitVal c₃
    let d₄ ← digitVal c₄
    some (((d₁ * 10 + d₂) * 10 + d₃) * 10 + d₄, rest)
  | _ => none

/-- Consume one expected character. -/
def expectChar (c : Char) : List Char → Option (List Char)
  | c' :: rest => if c' = c then some rest else none
  | [] => none

/-- Greedily collect leading decimal digits. -/
def takeDigits : List Char → List Int × List Char
  | [] => ([], [])
  | c :: rest =>
    match digitVal c with
    | some d =>
      let (ds, r) := takeDigits rest
      (d :: ds, r)
    | none => ([], c :: rest)

/-- Parse a fractional-seconds part (1–6 digits) into microseconds. -/
def parseFrac (cs : List Char) : Option (Int × List Char) :=
  let (ds, rest) := takeDigits cs
  if 1 ≤ ds.length ∧ ds.length ≤ 6 then
    some ((ds.foldl (fun a d => a * 10 + d) 0) * (10 : Int) ^ (6 - ds.length), rest)
  else none

/-- Parse a time `HH[:MM[:SS[.ffffff]]]` into microseconds since midnight. -/
def parseTime (cs : List Char) : Option (Int × List Char) := do
  let (h, cs₁) ← parse2 cs
  if h ≤ 23 then
    match cs₁ with
    | ':' :: cs₂ => do
      let (mi, cs₃) ← parse2 cs₂
      if mi ≤ 59 then
        match cs₃ with
        | ':' :: cs₄ => do
          let (sec, cs₅) ← parse2 cs₄
          if sec ≤ 59 then
            match cs₅ with
            | '.' :: cs₆ => do
              let (f, cs₇) ← parseFrac cs₆
              some (h * uPerHour + mi * uPerMin + sec * uPerSec + f, cs₇)
            | _ => some (h * uPerHour + mi * uPerMin + sec * uPerSec, cs₅)
          else none
        | _ => some (h * uPerHour + mi * uPerMin, cs₃)
      else none
    | _ => some (h * uPerHour, cs₁)
  else none

/-- Parse a UTC offset `±HH:MM` into signed microseconds. -/
def parseOffset (cs : List Char) : Option (Int × List Char) := do
  match cs with
  | '+' :: cs₁ => do
    let (h, cs₂) ← parse2 cs₁
    let cs₃ ← expectChar ':' cs₂
    let (mi, cs₄) ← parse2 cs₃
    if h ≤ 23 ∧ mi ≤ 59 then some (h * uPerHour + mi * uPerMin, cs₄) else none
  | '-' :: cs₁ => do
    let (h, cs₂) ← parse2 cs₁
    let cs₃ ← expectChar ':' cs₂
    let (mi, cs₄) ← parse2 cs₃
    if h ≤ 23 ∧ mi ≤ 59 then some (-(h * uPerHour + mi * uPerMin), cs₄) else none
  | _ => none

/-- Model of `datetime.fromisoformat` on the grammar
`YYYY-MM-DD[*HH[:MM[:SS[.f{1,6}]]][±HH:MM]]` (`*` any single separator
character), the classic subset of the ISO-8601 formats the Python
standard library accepts, with the library's component range validation.
Returns the naive wall-clock value in microseconds and, when an offset
designator is present, the offset in microseconds (`datetime.tzinfo`).
Texts outside this grammar are malformed (`ValueError`). -/
def fromisoformatChars (cs : List Char) : Option (Int × Option Int) := do
  let (y, cs₁) ← parse4 cs
  let cs₂ ← expectChar '-' cs₁
  let (mo, cs₃) ← parse2 cs₂
  let cs₄ ← expectChar '-' cs₃
  let (d, cs₅) ← parse2 cs₄
  if 1 ≤ y ∧ 1 ≤ mo ∧ mo ≤ 12 ∧ 1 ≤ d ∧ d ≤ daysInMonth y mo then
    let dayU : Int := daysFromCivil y mo d * uPerDay
    match cs₅ with
    | [] => some (dayU, none)
    | _ :: cs₆ => do
      let (t, cs₇) ← parseTime cs₆
      match cs₇ with
      | [] => some (dayU + t, none)
      | _ => do
        let (off, cs₈) ← parseOffset cs₇
        if cs₈ = [] then some (dayU + t, some off) else none
  else none

/-- Model of the replace call of `parse_iso_to_utc` (main.py), which
rewrites every occurrence of the single character Z to the six
characters of the UTC offset designator, character by character. -/
def replaceZ : List Char → List Char
  | [] => []
  | c :: rest =>
    if c = 'Z' then '+' :: '0' :: '0' :: ':' :: '0' :: '0' :: replaceZ rest
    else c :: replaceZ rest

/-- Model of `parse_iso_to_utc` (main.py): replace `Z`, parse; on `ValueError`
raise HTTP 400; an aware result converts to UTC directly
(`astimezone(timezone.utc)`, i.e. wall minus offset), a naive result is
given `tzinfo=APP_TZ` first (wall minus the Helsinki wall-clock offset,
`fold=0`). -/
def parse_iso_to_utc (iso_str : String) : Except HTTPException Int :=
  match fromisoformatChars (replaceZ iso_str.data) with
  | none => Except.error ⟨400, "Invalid ISO 8601 datetime: \x27" ++ iso_str ++ "\x27"⟩
  | some (wall, some off) => Except.ok (wall - off)
  | some (wall, none) => Except.ok (wall - helsinkiOffsetAtWall wall)

/-- First failure of a list of check results (spec §4.2: run the checks
in order, short-circuiting on the first failure; report the first
failure encountered, do not aggregate). -/
def firstFailure : List (Except HTTPException Unit) → Except HTTPException Unit
  | [] => Except.ok ()
  | Except.error e :: _ => Except.error e
  | Except.ok _ :: rest => firstFailure rest

/-- The six business-rule checks in the order fixed by the spec §4.2:
ordering, not-in-past, block alignment, duration bounds, single local
day, business hours. -/
def businessRuleChecks (now start_utc end_utc : Int) : List (Except HTTPException Unit) :=
  [validate_time_order start_utc end_utc,
   validate_not_in_past now start_utc,
   validate_30_min_blocks_local (to_helsinki start_utc) (to_helsinki end_utc),
   validate_duration_limits start_utc end_utc,
   validate_single_local_day (to_helsinki start_utc) (to_helsinki end_utc),
   validate_business_hours_local (to_helsinki start_utc) (to_helsinki end_utc)]

/-- No two members of the list satisfy the overlap predicate. -/
def pairwiseNonOverlapping (l : List Reservation) : Prop :=
  l.Pairwise (fun r₁ r₂ => overlaps r₁.start_utc r₁.end_utc r₂.start_utc r₂.end_utc = false)

/-! ## Helper lemmas about the individual validators -/

theorem validate_time_order_ok_iff (start_utc end_utc : Int) :
    validate_time_order start_utc end_utc = Except.ok () ↔ start_utc < end_utc := by
  unfold validate_time_order
  split <;> rename_i h <;> simp <;> omega

theorem validate_duration_limits_ok_iff (start_utc end_utc : Int) :
    validate_duration_limits start_utc end_utc = Except.ok () ↔
      MIN_DURATION ≤ end_utc - start_utc ∧ end_utc - start_utc ≤ MAX_DURATION := by
  simp only [validate_duration_limits]
  split <;> rename_i h₁
  · exact iff_of_false (by simp) (by omega)
  · split <;> rename_i h₂
    · exact iff_of_false (by simp) (by omega)
    · exact iff_of_true rfl (by omega)

theorem validate_30_min_blocks_local_ok_iff (start_local end_local : Int) :
    validate_30_min_blocks_local start_local end_local = Except.ok () ↔
      minuteOf start_local % 30 = 0 ∧ minuteOf end_local % 30 = 0 := by
  unfold validate_30_min_blocks_local
  split <;> rename_i h
  · exact iff_of_false (by simp) (by tauto)
  · exact iff_of_true rfl (by tauto)

theorem validate_single_local_day_ok_iff (start_local end_local : Int) :
    validate_single_local_day start_local end_local = Except.ok () ↔
      dateOf start_local = dateOf end_local := by
  unfold validate_single_local_day
  split <;> rename_i h <;> simp <;> tauto

theorem validate_business_hours_local_ok_iff (start_local end_local : Int) :
    validate_business_hours_local start_local end_local = Except.ok () ↔
      (BUSINESS_START ≤ todOf start_local ∧ todOf start_local ≤ BUSINESS_END ∧
       BUSINESS_START ≤ todOf end_local ∧ todOf end_local ≤ BUSINESS_END ∧
       todOf start_local ≠ BUSINESS_END) := by
  unfold validate_business_hours_local
  split <;> rename_i h₁
  · simp; tauto
  · split <;> rename_i h₂
    · simp; tauto
    · split <;> rename_i h₃ <;> simp <;> tauto

theorem validate_business_rules_ok_iff (now start_utc end_utc : Int) :
    validate_business_rules now start_utc end_utc = Except.ok () ↔
      (validate_time_order start_utc end_utc = Except.ok () ∧
       validate_not_in_past now start_utc = Except.ok () ∧
       validate_30_min_blocks_local (to_helsinki start_utc) (to_helsinki end_utc) = Except.ok () ∧
       validate_duration_limits start_utc end_utc = Except.ok () ∧
       validate_single_local_day (to_helsinki start_utc) (to_helsinki end_utc) = Except.ok () ∧
       validate_business_hours_local (to_helsinki start_utc) (to_helsinki end_utc) = Except.ok ()) := by
  unfold validate_business_rules
  cases h₁ : validate_time_order start_utc end_utc <;> simp [h₁]
  cases h₂ : validate_not_in_past now start_utc <;> simp [h₂]
  cases h₃ : validate_30_min_blocks_local (to_helsinki start_utc) (to_helsinki end_utc) <;>
    simp [h₃]
  cases h₄ : validate_duration_limits start_utc end_utc <;> simp [h₄]
  cases h₅ : validate_single_local_day (to_helsinki start_utc) (to_helsinki end_utc) <;>
    simp [h₅]

/-- The overlap predicate is symmetric. -/
theorem overlaps_comm (a b c d : Int) : overlaps a b c d = overlaps c d a b := by
  simp [overlaps, Bool.and_comm]

/-! ## Claim theorems: validators -/

/-- C2: every (start, end) pair accepted by `validate_business_rules`
satisfies `start < end`; a duration between 30 minutes and 8 hours
inclusive; Helsinki-local minutes of start and end both multiples of 30;
equal Helsinki-local calendar dates; both Helsinki-local times-of-day in
`[08:00, 16:00]`; and a start time-of-day different from 16:00. -/
theorem C2_validator_postconditions (now start_utc end_utc : Int)
    (h : validate_business_rules now start_utc end_utc = Except.ok ()) :
    start_utc < end_utc ∧
    MIN_DURATION ≤ end_utc - start_utc ∧ end_utc - start_utc ≤ MAX_DURATION ∧
    minuteOf (to_helsinki start_utc) % 30 = 0 ∧ minuteOf (to_helsinki end_utc) % 30 = 0 ∧
    dateOf (to_helsinki start_utc) = dateOf (to_helsinki end_utc) ∧
    BUSINESS_START ≤ todOf (to_helsinki start_utc) ∧
    todOf (to_helsinki start_utc) ≤ BUSINESS_END ∧
    BUSINESS_START ≤ todOf (to_helsinki end_utc) ∧
    todOf (to_helsinki end_utc) ≤ BUSINESS_END ∧
    todOf (to_helsinki start_utc) ≠ BUSINESS_END := by
  rw [validate_business_rules_ok_iff] at h
  obtain ⟨h₁, h₂, h₃, h₄, h₅, h₆⟩ := h
  rw [validate_time_order_ok_iff] at h₁
  rw [validate_30_min_blocks_local_ok_iff] at h₃
  rw [validate_duration_limits_ok_iff] at h₄
  rw [validate_single_local_day_ok_iff] at h₅
  rw [validate_business_hours_local_ok_iff] at h₆
  tauto

/-- Witness for C2: a reservation 09:00–10:00 Helsinki local time on
2026-07-01 (06:00–07:00 UTC, summer offset +3 h) is accepted. -/
theorem C2_validator_postconditions_witness :
    validate_business_rules 0 (civilMicros 2026 7 1 6 0 0) (civilMicros 2026 7 1 7 0 0) =
      Except.ok () ∧
    civilMicros 2026 7 1 6 0 0 < civilMicros 2026 7 1 7 0 0 :=
  ⟨by decide,
   (C2_validator_postconditions 0 (civilMicros 2026 7 1 6 0 0) (civilMicros 2026 7 1 7 0 0)
     (by decide)).1⟩

/-- C3: `overlaps` reports a conflict exactly when `s1 < e2` and
`s2 < e1` (half-open interval semantics); consequently a candidate that
starts exactly when the room's sole existing reservation ends passes the
conflict check of `create` and is accepted. -/
theorem C3_half_open_overlap :
    (∀ s₁ e₁ s₂ e₂ : Int, overlaps s₁ e₁ s₂ e₂ = true ↔ (s₁ < e₂ ∧ s₂ < e₁)) ∧
    (∀ (now : Int) (s : Store) (room : Room) (rid₁ rid₂ : String) (t₁ t₂ t₃ : Int),
       s.get room = [⟨rid₁, room, t₁, t₂⟩] →
       validate_business_rules now t₂ t₃ = Except.ok () →
       (InMemoryStore.create now s room t₂ t₃ rid₂).1 = Except.ok ⟨rid₂, room, t₂, t₃⟩) := by
  constructor
  · intro s₁ e₁ s₂ e₂
    simp [overlaps]
  · intro now s room rid₁ rid₂ t₁ t₂ t₃ hget hval
    unfold InMemoryStore.create
    rw [hval]
    simp [hget, overlaps]

/-- Witness for C3: with 09:00–10:00 local booked in room A, creating
10:00–11:00 local succeeds (back-to-back reservations do not conflict). -/
theorem C3_half_open_overlap_witness :
    (InMemoryStore.create 0
      (Store.mk [⟨"a", Room.A, civilMicros 2026 7 1 6 0 0, civilMicros 2026 7 1 7 0 0⟩] [])
      Room.A (civilMicros 2026 7 1 7 0 0) (civilMicros 2026 7 1 8 0 0) ("b")).1 =
      Except.ok ⟨("b"), Room.A, civilMicros 2026 7 1 7 0 0, civilMicros 2026 7 1 8 0 0⟩ :=
  C3_half_open_overlap.2 0
    (Store.mk [⟨"a", Room.A, civilMicros 2026 7 1 6 0 0, civilMicros 2026 7 1 7 0 0⟩] [])
    Room.A ("a") ("b") (civilMicros 2026 7 1 6 0 0) (civilMicros 2026 7 1 7 0 0)
    (civilMicros 2026 7 1 8 0 0) (by decide) (by decide)

/-- C4: in `validate_business_hours_local`, an end time-of-day of exactly
16:00 passes (given a start inside hours and not at 16:00), while a start
time-of-day of exactly 16:00 — which satisfies the inclusive bound check —
is rejected with the start-at-closing error (given an end inside hours). -/
theorem C4_end_at_closing_allowed_start_rejected :
    (∀ start_local end_local : Int,
       BUSINESS_START ≤ todOf start_local → todOf start_local ≤ BUSINESS_END →
       todOf start_local ≠ BUSINESS_END → todOf end_local = BUSINESS_END →
       validate_business_hours_local start_local end_local = Except.ok ()) ∧
    (∀ start_local end_local : Int,
       todOf start_local = BUSINESS_END →
       BUSINESS_START ≤ todOf end_local → todOf end_local ≤ BUSINESS_END →
       validate_business_hours_local start_local end_local = Except.error startAtClosingErr) := by
  constructor
  · intro sl el h₁ h₂ h₃ h₄
    rw [validate_business_hours_local_ok_iff]
    exact ⟨h₁, h₂, by rw [h₄]; decide, le_of_eq h₄, h₃⟩
  · intro sl el h₁ h₂ h₃
    unfold validate_business_hours_local
    rw [if_neg (not_not_intro ⟨by rw [h₁]; decide, le_of_eq h₁⟩)]
    rw [if_neg (not_not_intro ⟨h₂, h₃⟩)]
    rw [if_pos h₁]

/-- Witness for C4: on 2026-07-01, local 09:00→16:00 passes the
business-hours check; local 16:00→16:00 fails with start-at-closing. -/
theorem C4_end_at_closing_allowed_start_rejected_witness :
    validate_business_hours_local (civilMicros 2026 7 1 9 0 0) (civilMicros 2026 7 1 16 0 0) =
      Except.ok () ∧
    validate_business_hours_local (civilMicros 2026 7 1 16 0 0) (civilMicros 2026 7 1 16 0 0) =
      Except.error startAtClosingErr :=
  ⟨C4_end_at_closing_allowed_start_rejected.1 (civilMicros 2026 7 1 9 0 0)
     (civilMicros 2026 7 1 16 0 0) (by decide) (by decide) (by decide) (by decide),
   C4_end_at_closing_allowed_start_rejected.2 (civilMicros 2026 7 1 16 0 0)
     (civilMicros 2026 7 1 16 0 0) (by decide) (by decide) (by decide)⟩

/-- C5: `validate_business_rules` returns exactly the first failure of
the six checks in the fixed order (ordering, not-in-past, block
alignment, duration bounds, single local day, business hours), never
aggregating; in particular a reversed interval — even one in the past —
yields the ordering error. -/
theorem C5_fixed_check_order (now start_utc end_utc : Int) :
    (validate_business_rules now start_utc end_utc =
       firstFailure (businessRuleChecks now start_utc end_utc)) ∧
    (∀ n s e : Int, e ≤ s → validate_business_rules n s e = Except.error timeOrderErr) := by
  constructor
  · unfold validate_business_rules businessRuleChecks
    cases validate_time_order start_utc end_utc <;> simp [firstFailure]
    cases validate_not_in_past now start_utc <;> simp [firstFailure]
    cases validate_30_min_blocks_local (to_helsinki start_utc) (to_helsinki end_utc) <;>
      simp [firstFailure]
    cases validate_duration_limits start_utc end_utc <;> simp [firstFailure]
    cases validate_single_local_day (to_helsinki start_utc) (to_helsinki end_utc) <;>
      simp [firstFailure]
    cases validate_business_hours_local (to_helsinki start_utc) (to_helsinki end_utc) <;>
      simp [firstFailure]
  · intro n s e h
    unfold validate_business_rules validate_time_order
    rw [if_pos (by omega)]

/-- Witness for C5: an interval that is reversed and in the past is
rejected with the ordering error, not the past-start error. -/
theorem C5_fixed_check_order_witness :
    validate_business_rules (civilMicros 2100 1 1 0 0 0) 1 0 = Except.error timeOrderErr :=
  (C5_fixed_check_order 0 0 0).2 (civilMicros 2100 1 1 0 0 0) 1 0 (by decide)

/-- C10: the block-alignment check constrains only the minute components
of the local start and end; a request at local 09:00:15–09:30:15 on
2026-07-01 (with nonzero seconds) is accepted by the full validator. -/
theorem C10_blocks_ignore_seconds :
    (∀ start_local end_local : Int,
       validate_30_min_blocks_local start_local end_local = Except.ok () ↔
         (minuteOf start_local % 30 = 0 ∧ minuteOf end_local % 30 = 0)) ∧
    (∃ now start_utc end_utc : Int,
       validate_business_rules now start_utc end_utc = Except.ok () ∧
       secondOf (to_helsinki start_utc) ≠ 0 ∧ secondOf (to_helsinki end_utc) ≠ 0) :=
  ⟨validate_30_min_blocks_local_ok_iff,
   0, civilMicros 2026 7 1 6 0 15, civilMicros 2026 7 1 6 30 15,
   by decide, by decide, by decide⟩

/-! ## Helper lemmas about the store -/

theorem Store.get_set_self (s : Store) (room : Room) (l : List Reservation) :
    (s.set room l).get room = l := by
  cases room <;> rfl

theorem Store.get_set_other (s : Store) (room room' : Room) (l : List Reservation)
    (h : room' ≠ room) : (s.set room l).get room' = s.get room' := by
  cases room <;> cases room' <;> first | rfl | exact absurd rfl h

theorem removeFirstById_eq_none_iff (rid : String) (l : List Reservation) :
    removeFirstById rid l = none ↔ ∀ r ∈ l, r.id ≠ rid := by
  induction l with
  | nil => simp [removeFirstById]
  | cons r rs ih =>
    simp only [removeFirstById]
    split <;> rename_i h
    · simp [h]
    · simp [h, ih]

theorem removeFirstById_sublist (rid : String) :
    ∀ l l' : List Reservation, removeFirstById rid l = some l' → l'.Sublist l := by
  intro l
  induction l with
  | nil => intro l' h; simp [removeFirstById] at h
  | cons r rs ih =>
    intro l' h
    simp only [removeFirstById] at h
    split at h <;> rename_i hid
    · cases h
      exact List.sublist_cons_self r rs
    · rcases Option.map_eq_some'.mp h with ⟨l'', h'', rfl⟩
      exact List.Sublist.cons₂ r (ih l'' h'')

theorem removeFirstById_eq_filter (rid : String) :
    ∀ l l' : List Reservation, (l.map Reservation.id).Nodup →
      removeFirstById rid l = some l' → l' = l.filter (fun r => r.id != rid) := by
  intro l
  induction l with
  | nil => intro l' _ h; simp [removeFirstById] at h
  | cons r rs ih =>
    intro l' hnd h
    simp only [List.map_cons, List.nodup_cons] at hnd
    simp only [removeFirstById] at h
    split at h <;> rename_i hid
    · cases h
      have hrest : ∀ x ∈ rs, (x.id != rid) = true := by
        intro x hx
        have : x.id ≠ r.id := fun he => hnd.1 (he ▸ List.mem_map_of_mem Reservation.id hx)
        simp [hid ▸ this]
      rw [List.filter_cons_of_neg (by simp [hid]), List.filter_eq_self.mpr hrest]
    · rcases Option.map_eq_some'.mp h with ⟨l'', h'', rfl⟩
      rw [List.filter_cons_of_pos (by simp [hid]), ih l'' hnd.2 h'']

/-! ## Claim theorems: store -/

/-- C1: in every reachable store state (any sequence of successful
creates and deletes from the empty store), no two reservations stored in
the same room's collection satisfy the overlap predicate. -/
theorem C1_store_invariant (s : Store) (h : Reachable s) :
    ∀ room : Room, pairwiseNonOverlapping (s.get room) := by
  induction h with
  | init =>
    intro room
    cases room <;> simp [emptyStore, Store.get, pairwiseNonOverlapping]
  | create now s₀ room st en nid r s' _ hcr ih =>
    intro room'
    simp only [InMemoryStore.create] at hcr
    split at hcr
    · exact absurd (congrArg Prod.fst hcr) (by simp)
    · split at hcr <;> rename_i hany
      · exact absurd (congrArg Prod.fst hcr) (by simp)
      · have hs' : s' = s₀.set room (s₀.get room ++ [⟨nid, room, st, en⟩]) :=
          (congrArg Prod.snd hcr).symm
        subst hs'
        by_cases hr : room' = room
        · subst hr
          rw [Store.get_set_self]
          unfold pairwiseNonOverlapping
          rw [List.pairwise_append]
          refine ⟨ih room', by simp, ?_⟩
          intro a ha b hb
          simp only [List.mem_singleton] at hb
          subst hb
          have hfalse := List.any_eq_false.mp (Bool.eq_false_iff.mpr hany) a ha
          rw [overlaps_comm]
          exact Bool.eq_false_iff.mpr hfalse
        · rw [Store.get_set_other _ _ _ _ hr]
          exact ih room'
  | delete s₀ room rid s' _ hdel ih =>
    intro room'
    unfold InMemoryStore.delete at hdel
    split at hdel <;> rename_i hrem
    · cases hdel
      by_cases hr : room' = room
      · subst hr
        rw [Store.get_set_self]
        exact List.Pairwise.sublist (removeFirstById_sublist rid _ _ hrem) (ih room')
      · rw [Store.get_set_other _ _ _ _ hr]
        exact ih room'
    · exact absurd hdel (by simp)

/-- Witness for C1: the store reached by one successful create from the
empty store satisfies the invariant. -/
theorem C1_store_invariant_witness :
    pairwiseNonOverlapping
      ((Store.mk [⟨"a", Room.A, civilMicros 2026 7 1 6 0 0, civilMicros 2026 7 1 7 0 0⟩]
        []).get Room.A) :=
  C1_store_invariant _
    (Reachable.create 0 emptyStore Room.A (civilMicros 2026 7 1 6 0 0)
      (civilMicros 2026 7 1 7 0 0) ("a")
      ⟨("a"), Room.A, civilMicros 2026 7 1 6 0 0, civilMicros 2026 7 1 7 0 0⟩
      (Store.mk [⟨"a", Room.A, civilMicros 2026 7 1 6 0 0, civilMicros 2026 7 1 7 0 0⟩] [])
      Reachable.init (by decide)) Room.A

/-- C6: a `create` that fails — for any reason — leaves the store
exactly as it was (no partial mutation). -/
theorem C6_failed_create_no_mutation (now : Int) (s : Store) (room : Room)
    (start_utc end_utc : Int) (newId : String) (e : HTTPException)
    (h : (InMemoryStore.create now s room start_utc end_utc newId).1 = Except.error e) :
    (InMemoryStore.create now s room start_utc end_utc newId).2 = s := by
  cases hv : validate_business_rules now start_utc end_utc with
  | error e' => simp [InMemoryStore.create, hv]
  | ok u =>
    cases u
    by_cases hany :
        (s.get room).any (fun r => overlaps start_utc end_utc r.start_utc r.end_utc) = true
    · simp [InMemoryStore.create, hv, hany]
    · simp [InMemoryStore.create, hv, hany] at h

/-- Witness for C6: creating a reversed interval fails and leaves the
empty store empty. -/
theorem C6_failed_create_no_mutation_witness :
    (InMemoryStore.create 0 emptyStore Room.A 1 0 ("x")).2 = emptyStore :=
  C6_failed_create_no_mutation 0 emptyStore Room.A 1 0 ("x") timeOrderErr (by decide)

/-- C8: `list_room` returns a permutation of exactly the room's stored
reservations (no filtering of past reservations — the result does not
depend on any current time), sorted ascending by start instant. -/
theorem C8_list_room_sorted_permutation (s : Store) (room : Room) :
    (InMemoryStore.list_room s room).Perm (s.get room) ∧
    (InMemoryStore.list_room s room).Pairwise
      (fun r₁ r₂ => r₁.start_utc ≤ r₂.start_utc) := by
  constructor
  · exact List.perm_insertionSort startLE (s.get room)
  · exact List.sorted_insertionSort startLE (s.get room)

/-- C9: `delete` fails with not-found exactly when no reservation of the
target room carries the id (ids in other rooms are invisible); a
successful delete leaves every other room untouched and, when the room's
ids are distinct, removes precisely the matching reservation. -/
theorem C9_delete_semantics (s : Store) (room : Room) (rid : String) :
    (InMemoryStore.delete s room rid = Except.error notFoundErr ↔
      ∀ r ∈ s.get room, r.id ≠ rid) ∧
    ((∃ r ∈ s.get room, r.id = rid) →
      ∃ s', InMemoryStore.delete s room rid = Except.ok s') ∧
    (∀ s', InMemoryStore.delete s room rid = Except.ok s' →
      (∀ room', room' ≠ room → s'.get room' = s.get room') ∧
      (((s.get room).map Reservation.id).Nodup →
        s'.get room = (s.get room).filter (fun r => r.id != rid))) := by
  refine ⟨⟨?_, ?_⟩, ?_, ?_⟩
  · intro h
    rw [← removeFirstById_eq_none_iff rid (s.get room)]
    unfold InMemoryStore.delete at h
    split at h <;> rename_i hrem
    · exact absurd h (by simp)
    · exact hrem
  · intro h
    unfold InMemoryStore.delete
    rw [(removeFirstById_eq_none_iff rid (s.get room)).mpr h]
  · intro hex
    cases hrem : removeFirstById rid (s.get room) with
    | none =>
      rcases hex with ⟨r, hr, hid⟩
      exact absurd hid ((removeFirstById_eq_none_iff rid _).mp hrem r hr)
    | some l =>
      exact ⟨s.set room l, by unfold InMemoryStore.delete; rw [hrem]⟩
  · intro s' h
    unfold InMemoryStore.delete at h
    split at h <;> rename_i hrem
    · cases h
      constructor
      · intro room' hne
        rw [Store.get_set_other _ _ _ _ hne]
      · intro hnd
        rw [Store.get_set_self]
        exact removeFirstById_eq_filter rid _ _ hnd hrem
    · exact absurd h (by simp)

/-- Witness for C9: with id `a` only in room A and id `b` only in room
B, deleting `a` from room B is not-found, and deleting `a` from room A
leaves room B untouched and removes exactly `a` from room A. -/
theorem C9_delete_semantics_witness :
    InMemoryStore.delete (Store.mk [⟨"a", Room.A, 0, 1⟩] [⟨"b", Room.B, 0, 1⟩]) Room.B ("a") =
      Except.error notFoundErr ∧
    (Store.mk ([] : List Reservation) [⟨"b", Room.B, 0, 1⟩]).get Room.B =
      (Store.mk [⟨"a", Room.A, 0, 1⟩] [⟨"b", Room.B, 0, 1⟩]).get Room.B ∧
    (Store.mk ([] : List Reservation) [⟨"b", Room.B, 0, 1⟩]).get Room.A =
      ((Store.mk [⟨"a", Room.A, 0, 1⟩] [⟨"b", Room.B, 0, 1⟩]).get Room.A).filter
        (fun r => r.id != ("a")) := by
  refine ⟨(C9_delete_semantics _ Room.B _).1.mpr (by decide), ?_, ?_⟩
  · exact ((C9_delete_semantics (Store.mk [⟨"a", Room.A, 0, 1⟩] [⟨"b", Room.B, 0, 1⟩])
      Room.A ("a")).2.2 (Store.mk ([] : List Reservation) [⟨"b", Room.B, 0, 1⟩])
      (by decide)).1 Room.B (by decide)
  · exact ((C9_delete_semantics (Store.mk [⟨"a", Room.A, 0, 1⟩] [⟨"b", Room.B, 0, 1⟩])
      Room.A ("a")).2.2 (Store.mk ([] : List Reservation) [⟨"b", Room.B, 0, 1⟩])
      (by decide)).2 (by decide)

/-! ## Claim theorem: time normalizer -/

/-- C7: `parse_iso_to_utc` is total on texts: well-formed input with an
offset (including one produced from a `Z` marker by the replacement)
converts directly to the absolute instant (wall clock minus offset);
well-formed input without zone information is interpreted as
Europe/Helsinki wall-clock time (wall clock minus the Helsinki offset of
that wall time); malformed text yields an HTTP 400 client error; and
every error it can return is a 400 client error, never a crash. -/
theorem C7_time_normalizer (s : String) :
    (fromisoformatChars (replaceZ s.data) = none →
       parse_iso_to_utc s =
         Except.error ⟨400, "Invalid ISO 8601 datetime: \x27" ++ s ++ "\x27"⟩) ∧
    (∀ w off : Int, fromisoformatChars (replaceZ s.data) = some (w, some off) →
       parse_iso_to_utc s = Except.ok (w - off)) ∧
    (∀ w : Int, fromisoformatChars (replaceZ s.data) = some (w, none) →
       parse_iso_to_utc s = Except.ok (w - helsinkiOffsetAtWall w)) ∧
    (∀ e : HTTPException, parse_iso_to_utc s = Except.error e → e.status_code = 400) := by
  refine ⟨?_, ?_, ?_, ?_⟩
  · intro h
    unfold parse_iso_to_utc
    rw [h]
  · intro w off h
    unfold parse_iso_to_utc
    rw [h]
  · intro w h
    unfold parse_iso_to_utc
    rw [h]
  · intro e h
    unfold parse_iso_to_utc at h
    split at h
    · cases h
      rfl
    · exact absurd h (by simp)
    · exact absurd h (by simp)

/-- Witness for C7: a zoneless text is read as Helsinki wall-clock time,
an explicit-offset text converts directly, and garbage is a 400 error. -/
theorem C7_time_normalizer_witness :
    parse_iso_to_utc ("2026-07-01T09:00:00") =
      Except.ok (civilMicros 2026 7 1 9 0 0 -
        helsinkiOffsetAtWall (civilMicros 2026 7 1 9 0 0)) ∧
    parse_iso_to_utc ("2026-07-01T09:00:00+03:00") =
      Except.ok (civilMicros 2026 7 1 9 0 0 - 3 * uPerHour) ∧
    parse_iso_to_utc ("not-a-timestamp") =
      Except.error ⟨400, "Invalid ISO 8601 datetime: \x27not-a-timestamp\x27"⟩ :=
  ⟨(C7_time_normalizer ("2026-07-01T09:00:00")).2.2.1 (civilMicros 2026 7 1 9 0 0) (by decide),
   (C7_time_normalizer ("2026-07-01T09:00:00+03:00")).2.1 (civilMicros 2026 7 1 9 0 0)
     (3 * uPerHour) (by decide),
   (C7_time_normalizer ("not-a-timestamp")).1 (by decide)⟩
